import Mathlib

/-!
# Grid-trading simulation & backtesting engine: a shallow embedding

This file embeds the algorithmic core of a grid-trading system
(`grid_trading_system.py`, `backtester.py`) in Lean 4 and verifies its
specification against it.

Modelling conventions:
* Python floats are modelled as exact arithmetic: `ℚ` wherever the code does
  field arithmetic only (so properties are decidable on concrete inputs), `ℝ`
  where the code uses transcendental operations (`np.geomspace`, `np.exp`,
  `np.sqrt`).
* numpy's seeded PRNG is modelled as abstract draw streams `ℕ → ℝ`: calling
  `np.random.seed(42)` fixes the streams, so two runs of the generator see the
  same streams.
* `datetime.now()` is modelled as an explicit parameter `now : ℤ` (epoch
  minutes); `pd.date_range(end=now, periods=N, freq='1min')` becomes the list
  `[now-(N-1), …, now]`.
* Wall-clock timestamps on orders and trades are not modelled (no claim
  concerns them); all other record fields are kept.
* Fallible code is embedded with `Except`; code paths that return normally
  produce `.ok`.
-/

namespace Grid

/-- Order/fill side, `order['side'] ∈ {'buy', 'sell'}`. -/
inductive Side where
  | buy
  | sell
deriving DecidableEq, Repr

/-- Order status, `order['status'] ∈ {'open', 'filled', 'rejected'}`. -/
inductive OrderStatus where
  | opened
  | filled
  | rejected
deriving DecidableEq, Repr

/-- Order type, `order['type'] ∈ {'limit', 'market'}`. -/
inductive OrderType where
  | limit
  | market
deriving DecidableEq, Repr

/-- The two portfolio balances mutated by fills:
`portfolio['cash']` and `portfolio['positions']`
(`grid_trading_system.py` line 23, `backtester.py` line 67; the third key
`total_value` is recomputed by mark-to-market, see `SimState.totalValue`). -/
structure Portfolio where
  cash : ℚ
  positions : ℚ
deriving DecidableEq, Repr

/-- A fill request: side, price and base-currency amount. -/
structure Fill where
  side : Side
  price : ℚ
  amount : ℚ
deriving DecidableEq, Repr

/-- The ledger fill operation, from `execute_trade`
(`grid_trading_system.py` lines 146-167) with the fee rate as the run-level
parameter of `backtester.py` line 64 (`execute_trade` fixes it to `0.001`):
fee = price * amount * feeRate; a buy costs price * amount + fee and applies
only if cash ≥ cost; a sell applies only if positions ≥ amount and credits
price * amount - fee.  A fill whose guard fails leaves both balances
untouched. -/
def applyFill (feeRate : ℚ) (f : Fill) (pf : Portfolio) : Portfolio :=
  let fee := f.price * f.amount * feeRate
  match f.side with
  | .buy =>
      let cost := f.price * f.amount + fee
      if cost ≤ pf.cash then
        { cash := pf.cash - cost, positions := pf.positions + f.amount }
      else pf
  | .sell =>
      if f.amount ≤ pf.positions then
        { cash := pf.cash + (f.price * f.amount - fee),
          positions := pf.positions - f.amount }
      else pf

/-- A whole sequence of fills, applied left to right. -/
def applyFills (feeRate : ℚ) (fs : List Fill) (pf : Portfolio) : Portfolio :=
  fs.foldl (fun p f => applyFill feeRate f p) pf

/-- One fill keeps `cash ≥ 0 ∧ positions ≥ 0`. -/
lemma applyFill_nonneg (feeRate : ℚ) (f : Fill) (pf : Portfolio)
    (hfr1 : feeRate ≤ 1)
    (hp : 0 ≤ f.price) (ha : 0 ≤ f.amount)
    (hc : 0 ≤ pf.cash) (hq : 0 ≤ pf.positions) :
    0 ≤ (applyFill feeRate f pf).cash ∧ 0 ≤ (applyFill feeRate f pf).positions := by
  rcases f with ⟨side, price, amount⟩
  cases side with
  | buy =>
      simp only [applyFill]
      split
      · constructor
        · simpa using by linarith [mul_nonneg hp ha]
        · simpa using by positivity
      · exact ⟨hc, hq⟩
  | sell =>
      simp only [applyFill]
      split
      · refine ⟨?_, ?_⟩
        · have hfee : 0 ≤ price * amount - price * amount * feeRate := by
            nlinarith [mul_nonneg hp ha]
          simpa using by linarith
        · simpa using by linarith
      · exact ⟨hc, hq⟩

/-- A fill whose guard fails is a no-op on the portfolio. -/
lemma applyFill_rejected (feeRate : ℚ) (f : Fill) (pf : Portfolio)
    (h : (f.side = .buy ∧ pf.cash < f.price * f.amount * (1 + feeRate)) ∨
         (f.side = .sell ∧ pf.positions < f.amount)) :
    applyFill feeRate f pf = pf := by
  rcases f with ⟨side, price, amount⟩
  rcases h with ⟨hs, hlt⟩ | ⟨hs, hlt⟩ <;> cases hs
  · simp only [applyFill]
    rw [if_neg]
    simp only at hlt
    intro hle
    nlinarith
  · simp only [applyFill]
    rw [if_neg]
    simp only at hlt
    linarith

/-- C1: starting from nonnegative balances, any sequence of fills (with
nonnegative prices/amounts and a fee rate at most 1) keeps `cash ≥ 0` and
`positions ≥ 0`, and any single fill that fails its solvency guard leaves
both balances completely unchanged (no partial application). -/
theorem portfolio_invariant (feeRate : ℚ) (fs : List Fill) (pf : Portfolio)
    (hfr1 : feeRate ≤ 1)
    (hfs : ∀ f ∈ fs, 0 ≤ f.price ∧ 0 ≤ f.amount)
    (hc : 0 ≤ pf.cash) (hq : 0 ≤ pf.positions) :
    (0 ≤ (applyFills feeRate fs pf).cash ∧
     0 ≤ (applyFills feeRate fs pf).positions) ∧
    (∀ f : Fill,
      (f.side = .buy ∧ pf.cash < f.price * f.amount * (1 + feeRate)) ∨
      (f.side = .sell ∧ pf.positions < f.amount) →
      applyFill feeRate f pf = pf) := by
  constructor
  · induction fs generalizing pf with
    | nil => exact ⟨hc, hq⟩
    | cons f rest ih =>
        have hf := hfs f (List.mem_cons_self f rest)
        have step := applyFill_nonneg feeRate f pf hfr1 hf.1 hf.2 hc hq
        simpa [applyFills] using
          ih (applyFill feeRate f pf)
            (fun g hg => hfs g (List.mem_cons_of_mem f hg)) step.1 step.2
  · intro f h
    exact applyFill_rejected feeRate f pf h

/-- Witness for C1 at a concrete run: fee 0.1%, a buy of 1 unit at 100 then a
sell of 2 units at 100 (the sell guard fails), from cash 10000, flat. -/
theorem portfolio_invariant_witness :
    ((1/1000 : ℚ) ≤ 1 ∧
     (∀ f ∈ [Fill.mk .buy 100 1, Fill.mk .sell 100 2],
        0 ≤ f.price ∧ 0 ≤ f.amount) ∧
     0 ≤ (Portfolio.mk 10000 0).cash ∧ 0 ≤ (Portfolio.mk 10000 0).positions) ∧
    (0 ≤ (applyFills (1/1000) [Fill.mk .buy 100 1, Fill.mk .sell 100 2]
            (Portfolio.mk 10000 0)).cash ∧
     0 ≤ (applyFills (1/1000) [Fill.mk .buy 100 1, Fill.mk .sell 100 2]
            (Portfolio.mk 10000 0)).positions) := by
  refine ⟨⟨by norm_num, ?_, by norm_num, by norm_num⟩, ?_⟩
  · intro f hf
    fin_cases hf <;> exact ⟨by norm_num, by norm_num⟩
  · exact (portfolio_invariant (1/1000) [Fill.mk .buy 100 1, Fill.mk .sell 100 2]
      (Portfolio.mk 10000 0) (by norm_num)
      (by intro f hf; fin_cases hf <;> exact ⟨by norm_num, by norm_num⟩)
      (by norm_num) (by norm_num)).1

/-- C2: exact fill deltas.  A solvent buy moves cash by exactly
`price*amount*(1+feeRate)` and positions by `+amount`; a covered sell moves
cash by exactly `price*amount*(1-feeRate)` and positions by `-amount`; and
concretely, from {cash 10000, positions 0}, a buy of 1 at 100 with fee rate
0.001 yields {cash 9899.9, positions 1}. -/
theorem applyFill_exact_deltas (feeRate price amount c q : ℚ) :
    (price * amount * (1 + feeRate) ≤ c →
      applyFill feeRate (Fill.mk .buy price amount) (Portfolio.mk c q) =
        Portfolio.mk (c - price * amount * (1 + feeRate)) (q + amount)) ∧
    (amount ≤ q →
      applyFill feeRate (Fill.mk .sell price amount) (Portfolio.mk c q) =
        Portfolio.mk (c + price * amount * (1 - feeRate)) (q - amount)) ∧
    applyFill (1/1000) (Fill.mk .buy 100 1) (Portfolio.mk 10000 0) =
      Portfolio.mk (98999/10) 1 := by
  refine ⟨?_, ?_, ?_⟩
  · intro h
    simp only [applyFill]
    rw [if_pos (by linarith)]
    simp only [Portfolio.mk.injEq]
    constructor <;> ring_nf
  · intro h
    simp only [applyFill]
    rw [if_pos h]
    simp only [Portfolio.mk.injEq]
    constructor <;> ring_nf
  · simp only [applyFill]
    rw [if_pos (by norm_num)]
    simp only [Portfolio.mk.injEq]
    norm_num

/-- Witness for C2: the buy branch discharged at the spec's own example. -/
theorem applyFill_exact_deltas_witness :
    ((100 : ℚ) * 1 * (1 + 1/1000) ≤ 10000) ∧
    applyFill (1/1000) (Fill.mk .buy 100 1) (Portfolio.mk 10000 0) =
      Portfolio.mk (10000 - 100 * 1 * (1 + 1/1000)) (0 + 1) :=
  ⟨by norm_num, (applyFill_exact_deltas (1/1000) 100 1 10000 0).1 (by norm_num)⟩

/-- An order record, from `place_order` (`grid_trading_system.py` lines
113-121): id is `len(self.orders) + 1`; the wall-clock timestamp is not
modelled. -/
structure Order where
  id : ℕ
  price : ℚ
  amount : ℚ
  side : Side
  otype : OrderType
  status : OrderStatus
deriving DecidableEq, Repr

/-- A trade record, from `execute_trade` (`grid_trading_system.py` lines
148-155): fee = price * amount * 0.001; the wall-clock timestamp is not
modelled. -/
structure Trade where
  order_id : ℕ
  price : ℚ
  amount : ℚ
  side : Side
  fee : ℚ
deriving DecidableEq, Repr

/-- The mutable state of a `GridTradingSystem` run in simulation mode:
`self.portfolio` (cash, positions, total_value), `self.orders`,
`self.trades`. -/
structure SimState where
  portfolio : Portfolio
  totalValue : ℚ
  orders : List Order
  trades : List Trade
deriving DecidableEq, Repr

/-- `execute_trade` (`grid_trading_system.py` lines 146-170): builds the
trade record with fee = price * amount * 0.001, updates cash/positions via
the guarded fill (the same logic as `applyFill` at fee rate 0.001),
unconditionally appends the trade, then recomputes
`total_value = cash + positions * price` (`update_portfolio_value`). -/
def execute_trade (o : Order) (s : SimState) : SimState :=
  let fee := o.price * o.amount * (1/1000)
  let pf := applyFill (1/1000)
    { side := o.side, price := o.price, amount := o.amount } s.portfolio
  { portfolio := pf,
    totalValue := pf.cash + pf.positions * o.price,
    orders := s.orders,
    trades := s.trades ++
      [{ order_id := o.id, price := o.price, amount := o.amount,
         side := o.side, fee := fee }] }

/-- `place_order` in simulation mode (`grid_trading_system.py` lines
111-144): the order is created with status `open`, immediately marked
`filled`, executed through `execute_trade`, and appended to the order
log. -/
def place_order (price amount : ℚ) (side : Side) (s : SimState) : SimState :=
  let o : Order :=
    { id := s.orders.length + 1, price := price, amount := amount,
      side := side, otype := .limit, status := .opened }
  let o := { o with status := .filled }
  let s2 := execute_trade o s
  { s2 with orders := s2.orders ++ [o] }

/-- One grid level of one bar of `run_simulation` (`grid_trading_system.py`
lines 210-221): if `|close - grid_price| / grid_price < 0.001` the level is
hit; a buy is placed at the level when `close ≤ grid_price`, otherwise a
sell, but only when `positions > 0`; the amount is
`order_size / grid_price`. -/
def processLevel (order_size close : ℚ) (s : SimState) (grid_price : ℚ) : SimState :=
  if |close - grid_price| / grid_price < 1/1000 then
    let amount := order_size / grid_price
    if close ≤ grid_price then place_order grid_price amount .buy s
    else if 0 < s.portfolio.positions then place_order grid_price amount .sell s
    else s
  else s

/-- All grid levels of one bar, in list (ascending) order. -/
def processBar (order_size close : ℚ) (levels : List ℚ) (s : SimState) : SimState :=
  levels.foldl (processLevel order_size close) s

/-- A buy whose cost exceeds cash leaves the two balances untouched. -/
lemma applyFill_buy_insolvent (feeRate price amount : ℚ) (pf : Portfolio)
    (h : pf.cash < price * amount + price * amount * feeRate) :
    applyFill feeRate (Fill.mk .buy price amount) pf = pf := by
  simp only [applyFill]
  rw [if_neg (not_le.mpr h)]

/-- C10: in simulation mode `execute_trade` appends a trade record carrying
fee = price * amount * 0.001 to the trade log for every order, whether or not
the solvency check passed, so `total_trades = len(self.trades)` also counts
fills that left the portfolio unchanged; concretely, an insolvent buy from an
empty portfolio still grows the trade log to length 1 while the portfolio is
untouched. -/
theorem trade_log_unconditional (o : Order) (s : SimState) :
    ((execute_trade o s).trades =
      s.trades ++ [{ order_id := o.id, price := o.price, amount := o.amount,
                     side := o.side, fee := o.price * o.amount * (1/1000) }] ∧
     (execute_trade o s).trades.length = s.trades.length + 1) ∧
    ((execute_trade (Order.mk 1 100 1 .buy .limit .filled)
        (SimState.mk (Portfolio.mk 0 0) 0 [] [])).portfolio = Portfolio.mk 0 0 ∧
     (execute_trade (Order.mk 1 100 1 .buy .limit .filled)
        (SimState.mk (Portfolio.mk 0 0) 0 [] [])).trades.length = 1) := by
  refine ⟨⟨rfl, by simp [execute_trade]⟩, ?_, by simp [execute_trade]⟩
  simp only [execute_trade]
  exact applyFill_buy_insolvent (1/1000) 100 1 (Portfolio.mk 0 0) (by norm_num)

/-- C3 counterexample: in simulation mode an insolvent buy is *not* marked
`rejected`: the order enters the log with status `filled` (the portfolio is
unchanged, but no rejection is recorded). -/
theorem insolvent_order_marked_filled :
    ((place_order 100 1 .buy (SimState.mk (Portfolio.mk 0 0) 0 [] [])).orders.map
        Order.status = [OrderStatus.filled]) ∧
    (place_order 100 1 .buy (SimState.mk (Portfolio.mk 0 0) 0 [] [])).portfolio =
      Portfolio.mk 0 0 ∧
    OrderStatus.filled ≠ OrderStatus.rejected := by
  refine ⟨by simp [place_order, execute_trade], ?_, by decide⟩
  simp only [place_order, execute_trade]
  exact applyFill_buy_insolvent (1/1000) 100 1 (Portfolio.mk 0 0) (by norm_num)

/-- C3 amended: a fill that fails the solvency check — a buy with
cash < cost, or a sell with positions < amount — raises no error and is a
no-op on the portfolio; the order is recorded in the order log — but with
status `filled` (simulation marks every order filled before executing it),
not `rejected` — and a trade record is still appended; processing then
continues. -/
theorem insolvent_fill_recorded (side : Side) (price amount : ℚ) (s : SimState)
    (h : (side = .buy ∧
            s.portfolio.cash < price * amount + price * amount * (1/1000)) ∨
         (side = .sell ∧ s.portfolio.positions < amount)) :
    (place_order price amount side s).portfolio = s.portfolio ∧
    (place_order price amount side s).orders =
      s.orders ++ [Order.mk (s.orders.length + 1) price amount side .limit .filled] ∧
    (place_order price amount side s).trades =
      s.trades ++ [Trade.mk (s.orders.length + 1) price amount side
        (price * amount * (1/1000))] := by
  refine ⟨?_, by simp [place_order, execute_trade],
    by simp [place_order, execute_trade]⟩
  simp only [place_order, execute_trade]
  apply applyFill_rejected
  rcases h with ⟨hs, hlt⟩ | ⟨hs, hlt⟩
  · refine Or.inl ⟨hs, ?_⟩
    show s.portfolio.cash < price * amount * (1 + 1/1000)
    linarith
  · exact Or.inr ⟨hs, hlt⟩

/-- Witness for C3's amended claim: an insolvent sell (position 0 < amount 1)
and an insolvent buy (cash 0 < cost) both leave the portfolio unchanged. -/
theorem insolvent_fill_recorded_witness :
    ((SimState.mk (Portfolio.mk 0 0) 0 [] []).portfolio.positions < 1 ∧
     (SimState.mk (Portfolio.mk 0 0) 0 [] []).portfolio.cash <
       100 * 1 + 100 * 1 * (1/1000)) ∧
    (place_order 100 1 .sell (SimState.mk (Portfolio.mk 0 0) 0 [] [])).portfolio =
      (SimState.mk (Portfolio.mk 0 0) 0 [] []).portfolio ∧
    (place_order 100 1 .buy (SimState.mk (Portfolio.mk 0 0) 0 [] [])).portfolio =
      (SimState.mk (Portfolio.mk 0 0) 0 [] []).portfolio :=
  ⟨⟨by norm_num, by norm_num⟩,
   (insolvent_fill_recorded .sell 100 1 (SimState.mk (Portfolio.mk 0 0) 0 [] [])
      (Or.inr ⟨rfl, by norm_num⟩)).1,
   (insolvent_fill_recorded .buy 100 1 (SimState.mk (Portfolio.mk 0 0) 0 [] [])
      (Or.inl ⟨rfl, by norm_num⟩)).1⟩

/-- Per (bar, level) decision of `run_simulation`: the complete order-log
effect of `processLevel` — touch test, direction, level price and amount
`order_size / level` for both sides. -/
lemma grid_hit_rule (order_size close grid_price : ℚ) (s : SimState) :
    (processLevel order_size close s grid_price).orders =
      if |close - grid_price| / grid_price < 1/1000 then
        if close ≤ grid_price then
          s.orders ++ [Order.mk (s.orders.length + 1) grid_price
            (order_size / grid_price) .buy .limit .filled]
        else if 0 < s.portfolio.positions then
          s.orders ++ [Order.mk (s.orders.length + 1) grid_price
            (order_size / grid_price) .sell .limit .filled]
        else s.orders
      else s.orders := by
  simp only [processLevel]
  split_ifs <;> simp [place_order, execute_trade]

/-- `np.linspace(lower, upper, n)`: `n` evenly spaced points,
`lower + i * (upper - lower)/(n - 1)` (numpy fixes the final point to
`upper`, which in exact arithmetic is already the value of the formula at
`i = n - 1`).  Used by `calculate_grid` under `grid_type='linear'`
(`grid_trading_system.py` line 92) and inline by `backtest_grid_strategy`
(`backtester.py` line 83). -/
def linspace {K : Type} [Field K] (l u : K) (n : ℕ) : List K :=
  (List.range n).map (fun i : ℕ => l + (i : K) * ((u - l) / ((n : K) - 1)))

/-- `np.geomspace(lower, upper, n)`: evenly spaced in log-space,
`lower * (upper/lower) ^ (i/(n-1))`.  Used by `calculate_grid` under
`grid_type='geometric'` (`grid_trading_system.py` line 94). -/
noncomputable def geomspace (l u : ℝ) (n : ℕ) : List ℝ :=
  (List.range n).map (fun i : ℕ => l * (u / l) ^ ((i : ℝ) / ((n : ℝ) - 1)))

/-- The loop of `generate_fibonacci_ratios` (`grid_trading_system.py` lines
104-106): starting from `[0, 1]`, each step appends the sum of the last two
elements; `fibLoop k a b` is the block appended after `[.., a, b]` in `k`
steps. -/
def fibLoop : ℕ → ℕ → ℕ → List ℕ
  | 0, _, _ => []
  | k+1, a, b => (a + b) :: fibLoop k b (a + b)

/-- `fib = [0, 1]` extended by `range(2, n)` iterations. -/
def fibList (n : ℕ) : List ℕ := 0 :: 1 :: fibLoop (n - 2) 0 1

/-- `max_fib = max(fib)` (`grid_trading_system.py` line 108). -/
def maxFib (n : ℕ) : ℕ := (fibList n).foldr max 0

/-- `generate_fibonacci_ratios` (`grid_trading_system.py` lines 102-109):
`[f / max_fib for f in fib]`. -/
def generate_fibonacci_ratios {K : Type} [Field K] (n : ℕ) : List K :=
  (fibList n).map (fun f : ℕ => (f : K) / (maxFib n : K))

/-- The `fibonacci` branch of `calculate_grid` (`grid_trading_system.py`
lines 95-98): `[lower + ratio * (upper - lower) for ratio in fib_ratios]`. -/
def fibGrid {K : Type} [Field K] (l u : K) (n : ℕ) : List K :=
  (generate_fibonacci_ratios n).map (fun r => l + r * (u - l))

/-- `calculate_grid` (`grid_trading_system.py` lines 89-100): dispatches on
`grid_type`; an unrecognized mode takes no branch, so the method just
returns the previous `self.grid_levels` (passed here as `prev`).  The
`Except` result type records that no path of the method raises. -/
noncomputable def calculate_grid (current_price : ℝ) (prev : List ℝ)
    (lower_bound upper_bound : ℝ) (num_grids : ℕ) (grid_type : String) :
    Except String (List ℝ) :=
  if grid_type = "linear" then
    .ok (linspace lower_bound upper_bound num_grids)
  else if grid_type = "geometric" then
    .ok (geomspace lower_bound upper_bound num_grids)
  else if grid_type = "fibonacci" then
    .ok (fibGrid lower_bound upper_bound num_grids)
  else
    .ok prev

lemma linspace_getD {K : Type} [Field K] (l u : K) (n i : ℕ) (hi : i < n) :
    (linspace l u n).getD i 0 = l + (i : K) * ((u - l) / ((n : K) - 1)) := by
  simp [linspace, List.getD_eq_getElem?_getD, List.getElem?_map,
    List.getElem?_range hi]

/-- C5: in linear mode the generator returns exactly `count` levels in
arithmetic progression with constant spacing `(upper - lower)/(count - 1)`,
starting exactly at `lower_bound` and ending exactly at `upper_bound`; and
the linear branch of `calculate_grid` returns exactly this sequence. -/
theorem linear_grid_spec (l u : ℚ) (n : ℕ) (lr ur cp : ℝ) (prev : List ℝ)
    (h2 : 2 ≤ n) (hl : 0 < l) (hlu : l < u) :
    (linspace l u n).length = n ∧
    (linspace l u n).head? = some l ∧
    (linspace l u n).getLast? = some u ∧
    (∀ i, i + 1 < n →
      (linspace l u n).getD (i + 1) 0 - (linspace l u n).getD i 0 =
        (u - l) / ((n : ℚ) - 1)) ∧
    calculate_grid cp prev lr ur n "linear" = .ok (linspace lr ur n) := by
  obtain ⟨m, rfl⟩ : ∃ m, n = m + 2 := ⟨n - 2, by omega⟩
  refine ⟨by simp [linspace], ?_, ?_, ?_, by simp [calculate_grid]⟩
  · rw [show m + 2 = (m + 1) + 1 from rfl, linspace,
      List.range_succ_eq_map]
    simp
  · have hm : ((m:ℚ) + 2) - 1 ≠ 0 := by
      have : (0:ℚ) < (m:ℚ) + 1 := by positivity
      intro h
      nlinarith
    rw [show m + 2 = (m + 1) + 1 from rfl, linspace, List.range_succ,
      List.map_append]
    simp only [List.map_cons, List.map_nil]
    rw [List.getLast?_concat]
    refine congrArg some ?_
    push_cast
    field_simp
  · intro i hi
    rw [linspace_getD l u (m + 2) (i + 1) hi,
      linspace_getD l u (m + 2) i (by omega)]
    push_cast
    ring

/-- Witness for C5: the spec's own example, 5 linear levels on [90, 110]. -/
theorem linear_grid_spec_witness :
    (2 ≤ 5 ∧ (0:ℚ) < 90 ∧ (90:ℚ) < 110) ∧
    (linspace (90:ℚ) 110 5).head? = some 90 ∧
    (linspace (90:ℚ) 110 5).getLast? = some 110 :=
  ⟨⟨by norm_num, by norm_num, by norm_num⟩,
   (linear_grid_spec 90 110 5 90 110 100 [] (by norm_num) (by norm_num)
      (by norm_num)).2.1,
   (linear_grid_spec 90 110 5 90 110 100 [] (by norm_num) (by norm_num)
      (by norm_num)).2.2.1⟩

lemma linspace_chain_lt (l u : ℚ) (n : ℕ) (h2 : 2 ≤ n) (hlu : l < u) :
    List.Chain' (· < ·) (linspace l u n) := by
  obtain ⟨m, rfl⟩ : ∃ m, n = m + 2 := ⟨n - 2, by omega⟩
  rw [show m + 2 = (m + 1) + 1 from rfl, linspace, List.chain'_map,
    List.chain'_range_succ]
  intro i hi
  have hstep : 0 < (u - l) / (((m + 1 + 1 : ℕ) : ℚ) - 1) := by
    apply div_pos (by linarith)
    push_cast
    linarith
  have hii : (i : ℚ) < ((i + 1 : ℕ) : ℚ) := by push_cast; linarith
  nlinarith

lemma geomspace_chain_lt (l u : ℝ) (n : ℕ) (h2 : 2 ≤ n) (hl : 0 < l)
    (hlu : l < u) : List.Chain' (· < ·) (geomspace l u n) := by
  obtain ⟨m, rfl⟩ : ∃ m, n = m + 2 := ⟨n - 2, by omega⟩
  rw [show m + 2 = (m + 1) + 1 from rfl, geomspace, List.chain'_map,
    List.chain'_range_succ]
  intro i hi
  have hb : 1 < u / l := (one_lt_div hl).mpr hlu
  have hden : (0:ℝ) < ((m + 1 + 1 : ℕ) : ℝ) - 1 := by push_cast; linarith
  have hexp : (i : ℝ) / (((m + 1 + 1 : ℕ) : ℝ) - 1) <
      ((i + 1 : ℕ) : ℝ) / (((m + 1 + 1 : ℕ) : ℝ) - 1) :=
    (div_lt_div_iff_of_pos_right hden).mpr (by push_cast; linarith)
  have hpow := (Real.rpow_lt_rpow_left_iff hb).mpr hexp
  exact mul_lt_mul_of_pos_left hpow hl

lemma fibLoop_chain (k : ℕ) : ∀ a b : ℕ, List.Chain' (· ≤ ·) (b :: fibLoop k a b) := by
  induction k with
  | zero => intro a b; simp [fibLoop]
  | succ k ih =>
      intro a b
      rw [fibLoop, List.chain'_cons]
      exact ⟨by omega, ih b (a + b)⟩

lemma fibList_chain (n : ℕ) : List.Chain' (· ≤ ·) (fibList n) := by
  rw [fibList, List.chain'_cons]
  exact ⟨by omega, fibLoop_chain (n - 2) 0 1⟩

lemma one_le_maxFib (n : ℕ) : 1 ≤ maxFib n := by
  rw [maxFib, fibList]
  simp only [List.foldr_cons]
  omega

lemma fibGrid_chain_le (l u : ℚ) (n : ℕ) (hlu : l ≤ u) :
    List.Chain' (· ≤ ·) (fibGrid l u n) := by
  rw [fibGrid, generate_fibonacci_ratios, List.map_map, List.chain'_map]
  refine List.Chain'.imp ?_ (fibList_chain n)
  intro a b hab
  have hM : (0:ℚ) < (maxFib n : ℚ) := by
    exact_mod_cast Nat.lt_of_lt_of_le Nat.zero_lt_one (one_le_maxFib n)
  have hab2 : (a : ℚ) ≤ (b : ℚ) := by exact_mod_cast hab
  have hdiv : (a : ℚ) / (maxFib n : ℚ) ≤ (b : ℚ) / (maxFib n : ℚ) := by
    rw [div_le_div_iff hM hM]
    nlinarith
  simp only [Function.comp]
  nlinarith [sub_nonneg.mpr hlu]

/-- C6 counterexample: with the valid parameters lower = 1 < upper = 2 and
count = 4, the fibonacci-mode grid is [1, 3/2, 3/2, 2] — its second and third
levels are equal, so the sequence is not strictly increasing. -/
theorem fibonacci_grid_not_strict :
    ((0:ℚ) < 1 ∧ (1:ℚ) < 2 ∧ 2 ≤ 4) ∧
    fibGrid (1:ℚ) 2 4 = [1, 3/2, 3/2, 2] ∧
    ¬ List.Chain' (· < ·) (fibGrid (1:ℚ) 2 4) := by
  have hfl : fibList 4 = [0, 1, 1, 2] := rfl
  have hmax : maxFib 4 = 2 := rfl
  have he : fibGrid (1:ℚ) 2 4 = [1, 3/2, 3/2, 2] := by
    rw [fibGrid, generate_fibonacci_ratios, hfl, hmax]
    norm_num
  refine ⟨⟨by norm_num, by norm_num, by norm_num⟩, he, ?_⟩
  rw [he]
  intro h
  rw [List.chain'_cons, List.chain'_cons] at h
  exact absurd h.2.1 (lt_irrefl _)

/-- C6 amended: for valid parameters the linear and geometric grids are
strictly increasing, while the fibonacci grid is only non-decreasing (its
ratio list starts 0, 1, 1, so two adjacent levels coincide whenever
count ≥ 3). -/
theorem grid_monotonicity (l u : ℚ) (lr ur : ℝ) (n : ℕ)
    (h2 : 2 ≤ n) (hl : 0 < l) (hlu : l < u) (hlr : 0 < lr) (hlur : lr < ur) :
    List.Chain' (· < ·) (linspace l u n) ∧
    List.Chain' (· < ·) (geomspace lr ur n) ∧
    List.Chain' (· ≤ ·) (fibGrid l u n) :=
  ⟨linspace_chain_lt l u n h2 hlu,
   geomspace_chain_lt lr ur n h2 hlr hlur,
   fibGrid_chain_le l u n (le_of_lt hlu)⟩

/-- Witness for C6's amended claim at lower = 1, upper = 2, count = 3. -/
theorem grid_monotonicity_witness :
    (2 ≤ 3 ∧ (0:ℚ) < 1 ∧ (1:ℚ) < 2 ∧ (0:ℝ) < 1 ∧ (1:ℝ) < 2) ∧
    List.Chain' (· ≤ ·) (fibGrid (1:ℚ) 2 3) :=
  ⟨⟨by norm_num, one_pos, one_lt_two, one_pos, one_lt_two⟩,
   (grid_monotonicity 1 2 1 2 3 (by norm_num) one_pos one_lt_two
      one_pos one_lt_two).2.2⟩

/-- C7 counterexample: `calculate_grid` with the unsupported mode "cubic"
does not report an error — it silently returns the previous grid levels
unchanged. -/
theorem invalid_mode_counterexample :
    calculate_grid 50000 [(42:ℝ)] 1 2 5 "cubic" = .ok [42] := by
  rw [calculate_grid]
  rw [if_neg (by decide), if_neg (by decide), if_neg (by decide)]

/-- C7 amended: an unsupported spacing mode is a silent no-op: no branch of
`calculate_grid` is taken, no error is reported, and the previous
`self.grid_levels` value (initially the empty list) is returned unchanged. -/
theorem invalid_mode_silent (cp : ℝ) (prev : List ℝ) (l u : ℝ) (n : ℕ)
    (mode : String) (h1 : mode ≠ "linear") (h2 : mode ≠ "geometric")
    (h3 : mode ≠ "fibonacci") :
    calculate_grid cp prev l u n mode = .ok prev := by
  rw [calculate_grid, if_neg h1, if_neg h2, if_neg h3]

/-- Witness for C7's amended claim at mode "quadratic" and an empty prior
grid. -/
theorem invalid_mode_silent_witness :
    ("quadratic" ≠ "linear" ∧ "quadratic" ≠ "geometric" ∧
     "quadratic" ≠ "fibonacci") ∧
    calculate_grid 50000 [] 1 2 5 "quadratic" = .ok [] :=
  ⟨⟨by decide, by decide, by decide⟩,
   invalid_mode_silent 50000 [] 1 2 5 "quadratic" (by decide) (by decide)
     (by decide)⟩

/-- A backtester trade record (`backtester.py` lines 99-127): side, price,
amount, fee and the (possibly zero) `profit` field every trade carries; the
timestamp is not modelled. -/
structure BtTrade where
  side : Side
  price : ℚ
  amount : ℚ
  fee : ℚ
  profit : ℚ
deriving DecidableEq, Repr

/-- `win_rate` of `calculate_metrics` (`backtester.py` lines 168-176):
`(trades_df['profit'] > 0).mean() * 100` over the whole trade list (every
trade carries a `profit` column, buys with profit 0 included), and 0 for an
empty trade list.  The pandas boolean mean is the sum of 0/1 indicators over
the list length. -/
def win_rate_pct (trades : List BtTrade) : ℚ :=
  if trades.isEmpty then 0
  else ((trades.map (fun t => if 0 < t.profit then (1:ℚ) else 0)).sum /
        (trades.length : ℚ)) * 100

/-- The win-rate formula in the words of the spec (for comparison with
`win_rate_pct`): winning trades divided by the number of trades with a
*defined* realized profit — per the spec, only sell trades. -/
def spec_win_rate_pct (trades : List BtTrade) : ℚ :=
  100 * (trades.countP (fun t => decide (0 < t.profit)) : ℚ) /
    (trades.countP (fun t => decide (t.side = Side.sell)) : ℚ)

lemma indicator_sum_eq_countP (trades : List BtTrade) :
    (trades.map (fun t => if 0 < t.profit then (1:ℚ) else 0)).sum =
      (trades.countP (fun t => decide (0 < t.profit)) : ℚ) := by
  induction trades with
  | nil => simp
  | cons t ts ih =>
      rw [List.map_cons, List.sum_cons, ih, List.countP_cons]
      by_cases h : 0 < t.profit
      · simp [h, add_comm]
      · simp [h]

/-- C8 counterexample: the trade list [buy with profit 0, sell with profit 5]
has code win rate 50 (the buy counts in the denominator), while the claim's
formula — winners over trades with a defined realized profit, i.e. sells —
gives 100. -/
theorem win_rate_counterexample :
    win_rate_pct
        [BtTrade.mk .buy 100 1 (1/10) 0, BtTrade.mk .sell 101 1 (101/1000) 5] =
      50 ∧
    spec_win_rate_pct
        [BtTrade.mk .buy 100 1 (1/10) 0, BtTrade.mk .sell 101 1 (101/1000) 5] =
      100 ∧
    (50 : ℚ) ≠ 100 := by
  refine ⟨?_, ?_, by norm_num⟩
  · rw [win_rate_pct, if_neg (by simp)]
    simp only [List.map_cons, List.map_nil, List.sum_cons, List.sum_nil]
    rw [if_neg (by norm_num), if_pos (by norm_num)]
    norm_num
  · rw [spec_win_rate_pct]
    norm_num [List.countP_cons, List.countP_nil]
    rw [if_neg (by intro hcon; exact Side.noConfusion hcon)]
    norm_num

/-- C8 amended: for a non-empty trade list, `win_rate_pct` equals the number
of trades with profit > 0 divided by the number of *all* trades (buys, whose
profit is recorded as 0, included in the denominator), times 100. -/
theorem win_rate_denominator (trades : List BtTrade) (h : trades ≠ []) :
    win_rate_pct trades =
      (trades.countP (fun t => decide (0 < t.profit)) : ℚ) /
        (trades.length : ℚ) * 100 := by
  rw [win_rate_pct, if_neg (by simpa [List.isEmpty_iff] using h),
    indicator_sum_eq_countP]

/-- Witness for C8's amended claim at the two-trade list. -/
theorem win_rate_denominator_witness :
    ([BtTrade.mk .buy 100 1 (1/10) 0, BtTrade.mk .sell 101 1 (101/1000) 5] ≠
      ([] : List BtTrade)) ∧
    win_rate_pct
        [BtTrade.mk .buy 100 1 (1/10) 0, BtTrade.mk .sell 101 1 (101/1000) 5] =
      (List.countP (fun t => decide (0 < t.profit))
          [BtTrade.mk .buy 100 1 (1/10) 0,
           BtTrade.mk .sell 101 1 (101/1000) 5] : ℚ) /
        (List.length
          [BtTrade.mk .buy 100 1 (1/10) 0,
           BtTrade.mk .sell 101 1 (101/1000) 5] : ℚ) * 100 :=
  ⟨by simp,
   win_rate_denominator
     [BtTrade.mk .buy 100 1 (1/10) 0, BtTrade.mk .sell 101 1 (101/1000) 5]
     (by simp)⟩

/-- The backtester's running state inside `backtest_grid_strategy`
(`backtester.py` lines 67-73): the portfolio balances and the accumulated
trade list. -/
structure BtState where
  portfolio : Portfolio
  trades : List BtTrade
deriving DecidableEq, Repr

/-- `avg_buy_price` (`backtester.py` line 117): the unweighted mean price of
all buy trades so far, or the given default (the current grid price) when no
buy has been recorded. -/
def btAvgBuyPrice (trades : List BtTrade) (default : ℚ) : ℚ :=
  let buys := trades.filter (fun t => decide (t.side = Side.buy))
  if buys.isEmpty then default
  else (buys.map (fun t => t.price)).sum / (buys.length : ℚ)

/-- One grid level of one bar of `backtest_grid_strategy` (`backtester.py`
lines 86-127): the same touch test and directional rule as the simulator,
but a buy is silently skipped when cash < cost, and a sell is sized
`min(positions, order_size / grid_price)` — clamped to the available
position — with profit computed against the running average buy price. -/
def btProcessLevel (fee_rate order_size close : ℚ) (st : BtState)
    (grid_price : ℚ) : BtState :=
  if |close - grid_price| / grid_price < 1/1000 then
    if close ≤ grid_price then
      let amount := order_size / grid_price
      let cost := amount * grid_price * (1 + fee_rate)
      if cost ≤ st.portfolio.cash then
        { portfolio := { cash := st.portfolio.cash - cost,
                         positions := st.portfolio.positions + amount },
          trades := st.trades ++
            [BtTrade.mk .buy grid_price amount (amount * grid_price * fee_rate) 0] }
      else st
    else
      if 0 < st.portfolio.positions then
        let sell_amount := min st.portfolio.positions (order_size / grid_price)
        let revenue := sell_amount * grid_price * (1 - fee_rate)
        let avg := btAvgBuyPrice st.trades grid_price
        let profit := (grid_price - avg) * sell_amount
        { portfolio := { cash := st.portfolio.cash + revenue,
                         positions := st.portfolio.positions - sell_amount },
          trades := st.trades ++
            [BtTrade.mk .sell grid_price sell_amount
              (sell_amount * grid_price * fee_rate) profit] }
      else st
  else st

/-- C4 counterexample: in `backtest_grid_strategy`, a touched sell level
(close 100.05, level 100, relative distance 0.0005 < 0.001) with position
1/2 and order_size 100 records a sell of amount 1/2 = min(1/2, 100/100),
not the claim's order_size / level = 1. -/
theorem backtester_sell_clamped :
    (|10005/100 - (100:ℚ)| / 100 < 1/1000) ∧
    ((btProcessLevel (1/1000) 100 (10005/100)
        (BtState.mk (Portfolio.mk 0 (1/2)) []) 100).trades.map
          (fun t => t.amount) = [1/2]) ∧
    ((1/2 : ℚ) ≠ 100 / 100) := by
  have habs : |10005/100 - (100:ℚ)| / 100 < 1/1000 := by
    rw [show (10005:ℚ)/100 - 100 = 1/20 from by norm_num,
      abs_of_pos (by norm_num : (0:ℚ) < 1/20)]
    norm_num
  refine ⟨habs, ?_, by norm_num⟩
  rw [btProcessLevel]
  rw [if_pos habs, if_neg (by norm_num), if_pos (by norm_num)]
  simp only [List.nil_append, List.map_cons, List.map_nil]
  norm_num [min_def]

/-- C4 amended: the per-(bar, level) rule of both engines.  In both, an order
is attempted iff `|close - level| / level < 0.001`, the intent is buy when
`close ≤ level` and otherwise sell (skipped unless position > 0), and the
price is the level price.  In `run_simulation` the amount is always
`order_size / level`; in `backtest_grid_strategy` the buy amount is
`order_size / level` (with the buy silently skipped when cash < cost) but
the sell amount is `min(position, order_size / level)`, clamped to the
available position. -/
theorem grid_hit_rule_full (fee_rate order_size close grid_price : ℚ)
    (s : SimState) (st : BtState) :
    ((processLevel order_size close s grid_price).orders =
      if |close - grid_price| / grid_price < 1/1000 then
        if close ≤ grid_price then
          s.orders ++ [Order.mk (s.orders.length + 1) grid_price
            (order_size / grid_price) .buy .limit .filled]
        else if 0 < s.portfolio.positions then
          s.orders ++ [Order.mk (s.orders.length + 1) grid_price
            (order_size / grid_price) .sell .limit .filled]
        else s.orders
      else s.orders) ∧
    ((btProcessLevel fee_rate order_size close st grid_price).trades =
      if |close - grid_price| / grid_price < 1/1000 then
        if close ≤ grid_price then
          if (order_size / grid_price) * grid_price * (1 + fee_rate) ≤
              st.portfolio.cash then
            st.trades ++ [BtTrade.mk .buy grid_price (order_size / grid_price)
              ((order_size / grid_price) * grid_price * fee_rate) 0]
          else st.trades
        else if 0 < st.portfolio.positions then
          st.trades ++ [BtTrade.mk .sell grid_price
            (min st.portfolio.positions (order_size / grid_price))
            ((min st.portfolio.positions (order_size / grid_price)) *
              grid_price * fee_rate)
            ((grid_price - btAvgBuyPrice st.trades grid_price) *
              min st.portfolio.positions (order_size / grid_price))]
        else st.trades
      else st.trades) := by
  constructor
  · exact grid_hit_rule order_size close grid_price s
  · rw [btProcessLevel]
    split_ifs <;> simp [*]

/-- A bar sequence produced by `generate_market_data`
(`grid_trading_system.py` lines 61-87), column-wise: timestamps in epoch
minutes, then the five numeric columns. -/
structure MarketData where
  timestamps : List ℤ
  opens : List ℝ
  highs : List ℝ
  lows : List ℝ
  closes : List ℝ
  volumes : List ℝ

/-- The in-place mean-reversion loop (`grid_trading_system.py` lines 72-76)
after the first element: each price above `base*1.1` is replaced by
`prev*0.999`, each below `base*0.9` by `prev*1.001`, where `prev` is the
already-adjusted previous price. -/
noncomputable def mrLoop (base : ℝ) : ℝ → List ℝ → List ℝ
  | _, [] => []
  | prev, p :: rest =>
      let p2 := if base * (11/10) < p then prev * (999/1000)
                else if p < base * (9/10) then prev * (1001/1000)
                else p
      p2 :: mrLoop base p2 rest

/-- The loop runs over `range(1, len(prices))`: the first price is kept. -/
noncomputable def meanRevert (base : ℝ) : List ℝ → List ℝ
  | [] => []
  | p :: rest => p :: mrLoop base p rest

/-- `generate_market_data` (`grid_trading_system.py` lines 61-87):
`np.random.seed(42)` is called first, so the normal and uniform draw streams
(`gauss`, `unif`) are fixed; `dates = pd.date_range(end=datetime.now(),
periods=days*24*60, freq='1min')` depends on the wall clock `now`; returns
are `normal(0, volatility)/sqrt(24*60)`, prices are
`50000 * exp(cumsum(returns))` run through the mean-reversion loop, and the
OHLCV columns are fixed multiples of the price column plus the uniform
volume draws. -/
noncomputable def generate_market_data (gauss unif : ℕ → ℝ) (now : ℤ)
    (days : ℕ) (volatility : ℝ) : MarketData :=
  let N := days * 24 * 60
  let returnsAt : ℕ → ℝ := fun i => gauss i * volatility / Real.sqrt (24 * 60)
  let rawPrices := (List.range N).map
    (fun i : ℕ => 50000 * Real.exp (((List.range (i + 1)).map returnsAt).sum))
  let prices := meanRevert 50000 rawPrices
  { timestamps := (List.range N).map (fun i : ℕ => now - ((N : ℤ) - 1) + (i : ℤ)),
    opens := prices.map (fun p => p * (999/1000)),
    highs := prices.map (fun p => p * (1001/1000)),
    lows := prices.map (fun p => p * (998/1000)),
    closes := prices,
    volumes := (List.range N).map unif }

lemma getD_map_range {α : Type} (f : ℕ → α) (d : α) (n i : ℕ) (hi : i < n) :
    ((List.range n).map f).getD i d = f i := by
  simp [List.getD_eq_getElem?_getD, List.getElem?_map, List.getElem?_range hi]

/-- C9 counterexample: two runs of the generator with the same seed (hence
the same draw streams) and the same parameters, but started one minute apart,
produce bar sequences that differ in every timestamp — the first bar's
timestamp already differs. -/
theorem market_data_two_runs_differ :
    (generate_market_data (fun _ => 0) (fun _ => 0) 0 1 0).timestamps ≠
      (generate_market_data (fun _ => 0) (fun _ => 0) 1 1 0).timestamps := by
  intro h
  have h2 := congrArg (fun l => l.getD 0 (0:ℤ)) h
  simp only [generate_market_data] at h2
  rw [getD_map_range _ _ _ 0 (by norm_num),
    getD_map_range _ _ _ 0 (by norm_num)] at h2
  norm_num at h2

/-- C9 amended: for a fixed seed the five numeric columns (open, high, low,
close, volume) are identical across runs whatever the wall-clock time; the
timestamp column — anchored at `datetime.now()` — coincides only when the
two runs read the same clock, in which case the whole bar sequences are
identical. -/
theorem market_data_deterministic (gauss unif : ℕ → ℝ) (n1 n2 : ℤ)
    (days : ℕ) (volatility : ℝ) :
    ((generate_market_data gauss unif n1 days volatility).opens =
       (generate_market_data gauss unif n2 days volatility).opens ∧
     (generate_market_data gauss unif n1 days volatility).highs =
       (generate_market_data gauss unif n2 days volatility).highs ∧
     (generate_market_data gauss unif n1 days volatility).lows =
       (generate_market_data gauss unif n2 days volatility).lows ∧
     (generate_market_data gauss unif n1 days volatility).closes =
       (generate_market_data gauss unif n2 days volatility).closes ∧
     (generate_market_data gauss unif n1 days volatility).volumes =
       (generate_market_data gauss unif n2 days volatility).volumes) ∧
    (n1 = n2 →
      generate_market_data gauss unif n1 days volatility =
        generate_market_data gauss unif n2 days volatility) := by
  exact ⟨⟨rfl, rfl, rfl, rfl, rfl⟩, fun h => by rw [h]⟩

/-- Witness for C9's amended claim: two runs at the same clock reading are
fully identical. -/
theorem market_data_deterministic_witness :
    ((0:ℤ) = 0) ∧
    generate_market_data (fun _ => 0) (fun _ => 0) 0 1 0 =
      generate_market_data (fun _ => 0) (fun _ => 0) 0 1 0 :=
  ⟨rfl, (market_data_deterministic (fun _ => 0) (fun _ => 0) 0 0 1 0).2 rfl⟩

end Grid
